import Mathlib

/-!
Shallow embedding of the ad-break scheduling and timeline-reconciliation
engine of the ad-demo repository (src/app.js together with the two unnamed
variants of the same application: the content-relative client-swap build and
the function-based MediaTailor build).

Conventions of the embedding:
* Clock times, durations and offsets are rationals (`ℚ`); the JavaScript
  numbers in the source are IEEE doubles, but every operation the engine
  performs on them (comparison, addition, multiplication by constants) is
  exact on the values exercised here, so `ℚ` is a faithful carrier.
  `NaN` is not modelled.
* A JavaScript field that may be `null`/`undefined` is an `Option`.
* JavaScript truthiness on strings (`""` is falsy) and on numbers
  (`0` is falsy) is modelled explicitly by the `jsOr*` helpers.
* Stateful methods become functions from a state structure to a state
  structure; externally visible side effects (tracking events, seeks)
  become explicit effect lists.
-/

namespace AdDemo

/-- JavaScript `a || b` for an optional string `a`: `null`, `undefined` and
the empty string are falsy and select the default. -/
def jsOrString (a : Option String) (b : String) : String :=
  match a with
  | none => b
  | some s => if s = "" then b else s

/-- JavaScript `a || b` for an optional number `a`: `null`, `undefined` and
`0` are falsy and select the default (a negative number is truthy and is
kept). -/
def jsOrQ (a : Option ℚ) (b : ℚ) : ℚ :=
  match a with
  | none => b
  | some x => if x = 0 then b else x

-- ---------------------------------------------------------------------------
-- Number parsing (JavaScript parseInt(·, 10) and parseFloat on the numeric
-- core: optional leading whitespace, optional sign, decimal digits and, for
-- parseFloat, an optional fractional part).  Exponent notation and
-- "Infinity" are not modelled; no claim exercises them.
-- ---------------------------------------------------------------------------

/-- Embeds an integer into `ℚ` by a kernel-reducible constructor
(`Int.cast` through the algebraic tower does not reduce under `decide`). -/
def qOfInt (i : ℤ) : ℚ := mkRat i 1

/-- Characters JavaScript number parsing skips before the sign. -/
def isJsSpace (c : Char) : Bool :=
  c = ' ' || c = '\t' || c = '\n' || c = '\r'

/-- Longest leading run of decimal digits, returned with the rest. -/
def takeDigits : List Char → List Char × List Char
  | [] => ([], [])
  | c :: cs =>
    if c.isDigit then
      let (ds, rest) := takeDigits cs
      (c :: ds, rest)
    else ([], c :: cs)

/-- Numeric value of one decimal digit character. -/
def digitVal (c : Char) : Nat :=
  if c = '1' then 1 else if c = '2' then 2 else if c = '3' then 3
  else if c = '4' then 4 else if c = '5' then 5 else if c = '6' then 6
  else if c = '7' then 7 else if c = '8' then 8 else if c = '9' then 9
  else 0

/-- Value of a digit string (most significant first). -/
def digitsToNat : List Char → Nat
  | [] => 0
  | c :: cs => digitsToNat cs + digitVal c * 10 ^ cs.length

/-- JavaScript `parseInt(s, 10)` on a character list: skip whitespace,
optional sign, longest digit run; `none` models the `NaN` result when no
digit is found. -/
def jsParseInt (s : List Char) : Option ℤ :=
  let cs := s.dropWhile isJsSpace
  let (sign, cs) : ℤ × List Char :=
    match cs with
    | '-' :: rest => (-1, rest)
    | '+' :: rest => (1, rest)
    | rest => (1, rest)
  let (ds, _) := takeDigits cs
  if ds.isEmpty then none else some (sign * (digitsToNat ds : ℤ))

/-- JavaScript `parseFloat(s)` on its decimal-literal core: skip whitespace,
optional sign, digits with an optional fractional part (`"5."`, `".5"` and
`"5.25"` all parse); `none` models `NaN`. Exponent notation is outside the
modelled core. -/
def jsParseFloat (s : List Char) : Option ℚ :=
  let cs := s.dropWhile isJsSpace
  let (sign, cs) : ℚ × List Char :=
    match cs with
    | '-' :: rest => (-1, rest)
    | '+' :: rest => (1, rest)
    | rest => (1, rest)
  let (intDs, rest) := takeDigits cs
  let (fracDs, _) : List Char × List Char :=
    match rest with
    | '.' :: rest2 => takeDigits rest2
    | _ => ([], [])
  if intDs.isEmpty && fracDs.isEmpty then none
  else
    some (sign * (qOfInt (digitsToNat intDs) +
      mkRat (digitsToNat fracDs) (10 ^ fracDs.length)))

/-- JavaScript `String.prototype.trim()` on the whitespace the inputs here
can contain. -/
def jsTrimChars (cs : List Char) : List Char :=
  (((cs.dropWhile isJsSpace).reverse).dropWhile isJsSpace).reverse

/-- JavaScript `s.split(':')`: the empty string yields `[""]`, and a
separator at either edge yields an empty component there. -/
def splitOnColon : List Char → List (List Char)
  | [] => [[]]
  | c :: cs =>
    if c = ':' then [] :: splitOnColon cs
    else
      match splitOnColon cs with
      | [] => [[c]]
      | g :: gs => (c :: g) :: gs

-- ---------------------------------------------------------------------------
-- VMAPService.parseTimeOffset (src/app.js lines 60-73; the identical
-- parseTimeOffsetToSeconds appears in both unnamed variants).
-- ---------------------------------------------------------------------------

/-- `VMAPService.parseTimeOffset(timeOffset, totalDuration)`:
`"start"` maps to 0, `"end"` to the total duration, a three-part `H:M:S`
string to `H*3600 + M*60 + S` with unparseable components defaulting to 0
(`parseInt(...) || 0` / `parseFloat(...) || 0`), anything else to 0. A
total function: no input makes it throw. -/
def parseTimeOffset (timeOffset : String) (totalDuration : ℚ) : ℚ :=
  if timeOffset = "start" then 0
  else if timeOffset = "end" then totalDuration
  else
    match splitOnColon (jsTrimChars timeOffset.toList) with
    | [p0, p1, p2] =>
      let h : ℤ := (jsParseInt p0).getD 0
      let m : ℤ := (jsParseInt p1).getD 0
      let s : ℚ := (jsParseFloat p2).getD 0
      qOfInt h * 3600 + qOfInt m * 60 + s
    | _ => 0

-- ---------------------------------------------------------------------------
-- VMAP raw document shapes and the schedule builder
-- (VMAPService.extractVastUrl / buildAdBreakList, src/app.js lines 80-141;
-- the identical getVastUrlFromBreak / buildAdBreakList appear in the unnamed
-- variants).
-- ---------------------------------------------------------------------------

/-- The `adTagURI` field of a VMAP ad source: either a plain string or an
object exposing a `uri` field. -/
inductive AdTagUri
  | str (s : String)
  | obj (uri : Option String)
deriving DecidableEq

/-- A VMAP `adSource` object as far as the code inspects it. -/
structure RawAdSource where
  adTagURI : Option AdTagUri
deriving DecidableEq

/-- A raw VMAP ad break entry as far as the code inspects it. -/
structure RawAdBreak where
  timeOffset : Option String
  breakId : Option String
  adSource : Option RawAdSource
deriving DecidableEq

/-- The value `extractVastUrl` can hand back when it does not return null:
the tag string itself, the string found in the object form's truthy `uri`
field, or the object itself when its `uri` field is falsy (an object is
always truthy in JavaScript). -/
inductive VastUrlVal
  | fromString (s : String)
  | fromObjUri (s : String)
  | objectItself (uri : Option String)
deriving DecidableEq

/-- `VMAPService.extractVastUrl(adBreak)`: null when there is no ad source
or the `adTagURI` field is falsy (absent, or the empty string); otherwise
unwraps an object's truthy `uri` field, falling back to the object itself. -/
def extractVastUrl (br : RawAdBreak) : Option VastUrlVal :=
  match br.adSource with
  | none => none
  | some src =>
    match src.adTagURI with
    | none => none
    | some (.str s) => if s = "" then none else some (.fromString s)
    | some (.obj u) =>
      match u with
      | some s => if s = "" then some (.objectItself u) else some (.fromObjUri s)
      | none => some (.objectItself u)

/-- A click-through value stored on a break: a URL string, or the raw
template object that JavaScript falls back to when its `url` field is
falsy. -/
inductive ClickThroughVal
  | url (s : String)
  | templateObj (u : Option String)
deriving DecidableEq

/-- One entry of the ad-break schedule held by the manager (the object
literal pushed by `buildAdBreakList` and mutated by metadata resolution).
`duration`, `skipOffset` and `clickThrough` are optional because arbitrary
break lists can be handed to `setAdBreaks` and the engine reads them through
JavaScript truthiness. -/
structure AdBreak where
  index : ℕ
  timeOffset : String
  timeInSeconds : ℚ
  breakId : String
  vastUrl : Option VastUrlVal
  duration : Option ℚ
  skipOffset : Option ℚ
  clickThrough : Option ClickThroughVal
deriving DecidableEq

/-- The descriptor `buildAdBreakList` pushes for document entry `i` when the
entry has a resolvable VAST URL (src/app.js lines 126-136): note that `i` is
the position in the raw `vmap.adBreaks` array, counting entries that are
later discarded. -/
def mkVmapDescriptor (contentDuration : ℚ) (i : ℕ) (br : RawAdBreak) :
    Option AdBreak :=
  let timeOffset := jsOrString br.timeOffset "start"
  let seconds := parseTimeOffset timeOffset contentDuration
  match extractVastUrl br with
  | none => none
  | some v =>
    some { index := i
           timeOffset := timeOffset
           timeInSeconds := seconds
           breakId := jsOrString br.breakId ("break_" ++ toString i)
           vastUrl := some v
           duration := some 30
           skipOffset := some 5
           clickThrough := none }

/-- `VMAPService.buildAdBreakList(vmap, contentDuration)`: keep the entries
with a resolvable VAST URL and sort ascending by `timeInSeconds`
(JavaScript `Array.prototype.sort` with a numeric comparator; stable). -/
def buildAdBreakList (vmapAdBreaks : List RawAdBreak) (contentDuration : ℚ) :
    List AdBreak :=
  ((vmapAdBreaks.enum.filterMap fun p =>
      mkVmapDescriptor contentDuration p.1 p.2).mergeSort
    fun a b => a.timeInSeconds ≤ b.timeInSeconds)

-- ---------------------------------------------------------------------------
-- AdBreakManager (src/app.js lines 369-587): cumulative duration, break
-- detection, the enter/exit state machine, skip.
-- ---------------------------------------------------------------------------

/-- Effective duration of a break: `br.duration || DEFAULT_AD_DURATION`
(30). A missing field and an explicit 0 are both falsy and yield the
default; any other number, including a negative one, is kept. -/
def effDuration (br : AdBreak) : ℚ :=
  jsOrQ br.duration 30

/-- Effective skip offset of a break: `br.skipOffset || DEFAULT_SKIP_OFFSET`
(5). -/
def effSkipOffset (br : AdBreak) : ℚ :=
  jsOrQ br.skipOffset 5

/-- `AdBreakManager.getCumulativeAdDuration(upToIndex)`: total of
`duration || 30` over the breaks at positions `i < upToIndex` and
`i < adBreaks.length` (src/app.js lines 399-405). -/
def getCumulativeAdDuration : List AdBreak → ℕ → ℚ
  | _, 0 => 0
  | [], _ + 1 => 0
  | br :: rest, n + 1 => effDuration br + getCumulativeAdDuration rest n

/-- The cumulative duration addressed with a JavaScript number that may be
`-1` (`findIndex` miss): the loop `for (i = 0; i < upToIndex && ...)` runs
zero times for a negative bound. -/
def getCumulativeAdDurationI (brs : List AdBreak) (upToIndex : ℤ) : ℚ :=
  getCumulativeAdDuration brs upToIndex.toNat

/-- The predicate inside `detectActiveBreak`'s `find` callback (src/app.js
lines 413-419): the clock sample lies in the half-open shifted window
`[timeInSeconds + cumulative, timeInSeconds + cumulative + duration)` of the
break at sorted position `p.1`. -/
def breakHit (brs : List AdBreak) (t : ℚ) (p : ℕ × AdBreak) : Bool :=
  let adDuration := effDuration p.2
  let cumulativeAdDuration := getCumulativeAdDuration brs p.1
  let startTime := p.2.timeInSeconds + cumulativeAdDuration
  let endTime := startTime + adDuration
  decide (startTime ≤ t) && decide (t < endTime)

/-- The `find` loop of `detectActiveBreak`, carrying the sorted position of
the element under test. -/
def detectActiveBreakFrom (brs : List AdBreak) (t : ℚ) :
    List AdBreak → ℕ → Option (ℕ × AdBreak)
  | [], _ => none
  | br :: rest, i =>
    if breakHit brs t (i, br) then some (i, br)
    else detectActiveBreakFrom brs t rest (i + 1)

/-- `AdBreakManager.detectActiveBreak(hlsTime)` (src/app.js lines 412-421),
returning the first break (with its sorted position) whose shifted window
contains the sample. -/
def detectActiveBreak (brs : List AdBreak) (t : ℚ) : Option (ℕ × AdBreak) :=
  detectActiveBreakFrom brs t brs 0

/-- `findIndex(b => b.breakId === id)` over the break list: `-1` on a
miss, as in JavaScript. -/
def findBreakIndex (brs : List AdBreak) (id : String) : ℤ :=
  match brs.findIdx? (fun b => b.breakId = id) with
  | some i => (i : ℤ)
  | none => -1

/-- The state owned by `AdBreakManager` that the reconciliation claims talk
about. `currentAdBreak` holds a copy of the aliased JavaScript object; the
aliasing into `adBreaks` is made explicit where the code mutates through
it. -/
structure ManagerState where
  adBreaks : List AdBreak
  currentAdBreak : Option AdBreak
  isInAdBreak : Bool
deriving DecidableEq

/-- The manager right after construction (src/app.js lines 370-376). -/
def initialManagerState : ManagerState :=
  { adBreaks := [], currentAdBreak := none, isInAdBreak := false }

/-- `AdBreakManager.setAdBreaks(adBreaks)`. -/
def setAdBreaks (s : ManagerState) (brs : List AdBreak) : ManagerState :=
  { s with adBreaks := brs }

/-- The synchronous prefix of `AdBreakManager.startAdBreak(breakInfo)`
(src/app.js lines 455-456): flag and active pointer are set before the
asynchronous metadata resolution is started. -/
def startAdBreakEntry (s : ManagerState) (br : AdBreak) : ManagerState :=
  { s with isInAdBreak := true, currentAdBreak := some br }

/-- `AdBreakManager.endAdBreak()` (src/app.js lines 481-493) as far as the
manager's own state is concerned. -/
def endAdBreakOp (s : ManagerState) : ManagerState :=
  { s with isInAdBreak := false, currentAdBreak := none }

/-- `AdBreakManager.reset()` (src/app.js lines 581-586). -/
def resetManager (_ : ManagerState) : ManagerState :=
  initialManagerState

/-- `AdBreakManager.update(hlsTime)` (src/app.js lines 427-446): empty list
is a no-op; otherwise enter on a fresh match, exit on a lost match, and
leave the state untouched while the same break persists (the progress
branch only drives UI and tracking). -/
def updateManager (s : ManagerState) (t : ℚ) : ManagerState :=
  if s.adBreaks.length = 0 then s
  else
    match detectActiveBreak s.adBreaks t with
    | some (_, br) => if s.isInAdBreak then s else startAdBreakEntry s br
    | none => if s.isInAdBreak then endAdBreakOp s else s

/-- The operations of the manager covered by the state invariant claim. -/
inductive ManagerOp
  | setBreaks (brs : List AdBreak)
  | update (t : ℚ)
  | start (br : AdBreak)
  | endBreak
  | reset

/-- One completed manager operation. -/
def managerStep (op : ManagerOp) (s : ManagerState) : ManagerState :=
  match op with
  | .setBreaks brs => setAdBreaks s brs
  | .update t => updateManager s t
  | .start br => startAdBreakEntry s br
  | .endBreak => endAdBreakOp s
  | .reset => resetManager s

/-- The reconciler invariant: the in-break flag agrees with the presence of
an active break. -/
def managerInv (s : ManagerState) : Prop :=
  s.isInAdBreak = s.currentAdBreak.isSome

/-- Externally visible playback effects of the skip action. -/
inductive PlayerEffect
  | trackSkip
  | seekTo (t : ℚ)
deriving DecidableEq

/-- `AdBreakManager.skipCurrentAd(player)` (src/app.js lines 516-534):
guard on an active break and a player, then compute the end of the shifted
window, fire the skip tracking call and issue one seek. The manager state
is not modified. -/
def skipCurrentAd (s : ManagerState) (playerPresent : Bool) :
    ManagerState × List PlayerEffect :=
  match s.currentAdBreak, playerPresent with
  | none, _ => (s, [])
  | some _, false => (s, [])
  | some br, true =>
    let breakIndex := findBreakIndex s.adBreaks br.breakId
    let cumulativeAdDuration := getCumulativeAdDurationI s.adBreaks breakIndex
    let adDuration := effDuration br
    let endTime := br.timeInSeconds + cumulativeAdDuration + adDuration
    (s, [PlayerEffect.trackSkip, PlayerEffect.seekTo endTime])

-- ---------------------------------------------------------------------------
-- AdTracker.initialize metadata extraction (src/app.js lines 261-295) and
-- the asynchronous tail of AdBreakManager.startAdBreak (lines 462-475).
-- ---------------------------------------------------------------------------

/-- A VAST linear creative as far as the metadata extraction inspects it. -/
structure VastCreative where
  duration : Option ℚ
  skipDelay : Option ℚ
  videoClickThroughURLTemplate : Option ClickThroughVal
deriving DecidableEq

/-- `creative.videoClickThroughURLTemplate?.url ||
creative.videoClickThroughURLTemplate || null` (src/app.js line 280): a
truthy `url` field wins, else the template value itself if truthy, else
null. Optional chaining on a plain string yields `undefined`, so a string
template falls through to itself. -/
def extractClickThrough (c : VastCreative) : Option ClickThroughVal :=
  match c.videoClickThroughURLTemplate with
  | none => none
  | some (.url s) => if s = "" then none else some (.url s)
  | some (.templateObj u) =>
    match u with
    | some s => if s = "" then some (.templateObj u) else some (.url s)
    | none => some (.templateObj u)

/-- The ad metadata object built by `AdTracker.initialize` on a successful
resolution (src/app.js lines 279-283). -/
structure AdMetadata where
  clickThrough : Option ClickThroughVal
  duration : ℚ
  skipOffset : ℚ
deriving DecidableEq

/-- The field extraction of `AdTracker.initialize`:
`duration: creative.duration || 30` and
`skipOffset: creative.skipDelay || 5` — JavaScript `||`, so an explicit 0
(and an absent field) selects the default while any nonzero number,
negative included, is kept. -/
def extractAdMetadata (c : VastCreative) : AdMetadata :=
  { clickThrough := extractClickThrough c
    duration := jsOrQ c.duration 30
    skipOffset := jsOrQ c.skipDelay 5 }

/-- The two extraction lines of `triggerAdBreak` in the content-relative
client-swap build (src/unnamed/part_000 line 325):
`creative.duration > 0 ? creative.duration : 15`. -/
def clientSwapDuration (c : VastCreative) : ℚ :=
  match c.duration with
  | some d => if 0 < d then d else 15
  | none => 15

/-- src/unnamed/part_000 line 326:
`creative.skipDelay != null && creative.skipDelay >= 0 ? creative.skipDelay
: 5`. -/
def clientSwapSkipOffset (c : VastCreative) : ℚ :=
  match c.skipDelay with
  | some d => if 0 ≤ d then d else 5
  | none => 5

/-- Applies a resolved metadata object to one break object (the three field
writes on `this.currentAdBreak`, src/app.js lines 465-467). -/
def applyBreakMetadata (br : AdBreak) (m : AdMetadata) : AdBreak :=
  { br with clickThrough := m.clickThrough
            duration := some m.duration
            skipOffset := some m.skipOffset }

/-- Rewrites the first list entry with the given `breakId` (the code
addresses single objects, by alias or by `findIndex`; a miss leaves the
list unchanged). -/
def updateFirstById (brs : List AdBreak) (id : String)
    (f : AdBreak → AdBreak) : List AdBreak :=
  match brs.findIdx? (fun b => b.breakId = id) with
  | none => brs
  | some i =>
    match brs[i]? with
    | some b => brs.set i (f b)
    | none => brs

/-- The code that runs when the asynchronous `tracker.initialize(breakInfo)`
of `startAdBreak` completes (src/app.js lines 462-475). `origin` is the
captured `breakInfo`; `this.currentAdBreak` is re-read at completion time.
A `none` result models the thrown `TypeError` of
`this.currentAdBreak.clickThrough = ...` when the break has exited and the
active pointer is null (the rejection escapes `startAdBreak`; no state is
written). When some break is active, the writes go through the alias to
that break — the currently active one, whichever it is — and then to the
master-list entry found by the origin's `breakId`. -/
def applyResolvedMetadata (s : ManagerState) (origin : AdBreak)
    (metadata : Option AdMetadata) : Option ManagerState :=
  match metadata with
  | none => some s
  | some m =>
    match s.currentAdBreak with
    | none => none
    | some active =>
      let active2 := applyBreakMetadata active m
      let listAfterAlias := updateFirstById s.adBreaks active.breakId
        (applyBreakMetadata · m)
      some { s with
        currentAdBreak := some active2
        adBreaks := updateFirstById listAfterAlias origin.breakId
          fun b => { b with duration := some m.duration
                            skipOffset := some m.skipOffset } }

-- ---------------------------------------------------------------------------
-- Content-relative client-swap mode (src/unnamed/part_000):
-- handleContentTimeUpdate (lines 639-681), the trigger bookkeeping of
-- triggerAdBreak (lines 277-416) and the cleanup of cleanupAdAndResume
-- (lines 469-506).  The asynchronous VAST fetch inside triggerAdBreak is
-- modelled as completing successfully at trigger time; the claim under test
-- concerns only which breaks get triggered.
-- ---------------------------------------------------------------------------

/-- `AD_TRIGGER_TOLERANCE` (src/unnamed/part_000 line 33). -/
def adTriggerTolerance : ℚ := mkRat 1 2

/-- The module-level session state the client-swap trigger logic reads and
writes. `lastTriggeredBreakIndex` is a JavaScript number initialised to
`-1`; `currentAd` keeps (the break of) the ad being played. -/
structure SwapState where
  adBreaks : List AdBreak
  contentDuration : ℚ
  currentAd : Option AdBreak
  lastTriggeredBreakIndex : ℤ
deriving DecidableEq

/-- The `for` loop of `handleContentTimeUpdate` (src/unnamed/part_000 lines
652-680), carrying the loop position `i`. The guard
`lastTriggeredBreakIndex === i` compares against the loop position in the
sorted list, while a successful trigger later stores `breakInfo.index`, the
original document index. Pre-roll, post-roll and mid-roll entries match
under the 0.5 s tolerance rules; a non-matching entry falls through to the
next iteration. -/
def scanForBreak (cd : ℚ) (last : ℤ) (t : ℚ) :
    List AdBreak → ℕ → Option (ℕ × AdBreak)
  | [], _ => none
  | br :: rest, i =>
    if last = (i : ℤ) then scanForBreak cd last t rest (i + 1)
    else if br.timeInSeconds ≤ 0 then
      if t < adTriggerTolerance then some (i, br)
      else scanForBreak cd last t rest (i + 1)
    else if cd - adTriggerTolerance ≤ br.timeInSeconds then
      if cd - adTriggerTolerance ≤ t then some (i, br)
      else scanForBreak cd last t rest (i + 1)
    else if |t - br.timeInSeconds| ≤ adTriggerTolerance then some (i, br)
    else scanForBreak cd last t rest (i + 1)

/-- One event of the client-swap session: a content clock sample
(`timeupdate` → `handleContentTimeUpdate`), or the end of the running ad
(`onAdEnded`/`cleanupAdAndResume`, which clears `currentAd` and leaves
`lastTriggeredBreakIndex` alone). -/
inductive SwapEvent
  | sample (t : ℚ)
  | adEnded

/-- `handleContentTimeUpdate(t)` followed, on a match, by the successful
path of `triggerAdBreak(br)`: record `lastTriggeredBreakIndex :=
breakInfo.index` and start playing the ad. Returns the sorted positions
triggered by this event (at most one). -/
def swapStep (s : SwapState) : SwapEvent → SwapState × List ℕ
  | .sample t =>
    if s.currentAd.isSome then (s, [])
    else
      match scanForBreak s.contentDuration s.lastTriggeredBreakIndex t
          s.adBreaks 0 with
      | none => (s, [])
      | some (i, br) =>
        ({ s with currentAd := some br
                  lastTriggeredBreakIndex := (br.index : ℤ) }, [i])
  | .adEnded =>
    match s.currentAd with
    | none => (s, [])
    | some _ => ({ s with currentAd := none }, [])

/-- Runs a sequence of session events, concatenating the trigger log. -/
def runSwapEvents (s : SwapState) : List SwapEvent → SwapState × List ℕ
  | [] => (s, [])
  | e :: es =>
    ((runSwapEvents (swapStep s e).1 es).1,
      (swapStep s e).2 ++ (runSwapEvents (swapStep s e).1 es).2)


-- ---------------------------------------------------------------------------
-- Lemmas about the cumulative-duration arithmetic
-- ---------------------------------------------------------------------------

/-- The cumulative duration is the sum of effective durations over the
prefix of the requested length. -/
theorem getCumulativeAdDuration_eq_sum (brs : List AdBreak) :
    ∀ n, getCumulativeAdDuration brs n = ((brs.map effDuration).take n).sum := by
  induction brs with
  | nil =>
    intro n
    cases n <;> simp [getCumulativeAdDuration]
  | cons br rest ih =>
    intro n
    cases n with
    | zero => simp [getCumulativeAdDuration]
    | succ m => simp [getCumulativeAdDuration, ih]

/-- Stepping the cumulative duration across position `i`. -/
theorem getCumulativeAdDuration_succ (brs : List AdBreak) :
    ∀ (i : ℕ) (br : AdBreak), brs[i]? = some br →
      getCumulativeAdDuration brs (i + 1) =
        getCumulativeAdDuration brs i + effDuration br := by
  induction brs with
  | nil => intro i br h; simp at h
  | cons b rest ih =>
    intro i br h
    cases i with
    | zero =>
      simp at h
      subst h
      simp [getCumulativeAdDuration]
    | succ j =>
      simp at h
      have := ih j br (by simpa using h)
      simp [getCumulativeAdDuration, this]
      ring

/-- The cumulative duration is nonnegative when every effective duration
is. -/
theorem getCumulativeAdDuration_nonneg (brs : List AdBreak)
    (hd : ∀ br ∈ brs, 0 ≤ effDuration br) :
    ∀ n, 0 ≤ getCumulativeAdDuration brs n := by
  induction brs with
  | nil => intro n; cases n <;> simp [getCumulativeAdDuration]
  | cons b rest ih =>
    intro n
    cases n with
    | zero => simp [getCumulativeAdDuration]
    | succ m =>
      have h1 : (0 : ℚ) ≤ effDuration b := hd b (by simp)
      have h2 := ih (fun br hbr => hd br (by simp [hbr])) m
      simp only [getCumulativeAdDuration]
      linarith

/-- The cumulative duration is monotone in the bound when every effective
duration is nonnegative. -/
theorem getCumulativeAdDuration_mono (brs : List AdBreak)
    (hd : ∀ br ∈ brs, 0 ≤ effDuration br) :
    ∀ {m n : ℕ}, m ≤ n →
      getCumulativeAdDuration brs m ≤ getCumulativeAdDuration brs n := by
  induction brs with
  | nil =>
    intro m n _
    cases m <;> cases n <;> simp [getCumulativeAdDuration]
  | cons b rest ih =>
    intro m n hmn
    cases m with
    | zero =>
      simpa [getCumulativeAdDuration] using
        getCumulativeAdDuration_nonneg (b :: rest) hd n
    | succ m0 =>
      cases n with
      | zero => omega
      | succ n0 =>
        have := ih (fun br hbr => hd br (by simp [hbr])) (by omega : m0 ≤ n0)
        simp only [getCumulativeAdDuration]
        linarith

/-- The membership form of `breakHit`: the two comparisons of the shifted
half-open window. -/
theorem breakHit_iff (brs : List AdBreak) (t : ℚ) (i : ℕ) (br : AdBreak) :
    breakHit brs t (i, br) = true ↔
      br.timeInSeconds + getCumulativeAdDuration brs i ≤ t ∧
        t < br.timeInSeconds + getCumulativeAdDuration brs i + effDuration br := by
  simp [breakHit]

/-- With a schedule sorted by `timeInSeconds` and nonnegative effective
durations, the shifted windows are pairwise disjoint: a sample cannot hit
two distinct sorted positions. -/
theorem breakHit_disjoint (brs : List AdBreak)
    (hs : List.Pairwise (fun a b => a.timeInSeconds ≤ b.timeInSeconds) brs)
    (hd : ∀ br ∈ brs, 0 ≤ effDuration br)
    {t : ℚ} {i j : ℕ} {bri brj : AdBreak}
    (hi : brs[i]? = some bri) (hj : brs[j]? = some brj)
    (h1 : breakHit brs t (i, bri) = true)
    (h2 : breakHit brs t (j, brj) = true) : i = j := by
  rcases lt_trichotomy i j with hij | hij | hij
  · exfalso
    have hwin1 := (breakHit_iff brs t i bri).mp h1
    have hwin2 := (breakHit_iff brs t j brj).mp h2
    have hilen : i < brs.length := (List.getElem?_eq_some.mp hi).1
    have hjlen : j < brs.length := (List.getElem?_eq_some.mp hj).1
    have hts : bri.timeInSeconds ≤ brj.timeInSeconds := by
      have := List.pairwise_iff_getElem.mp hs i j hilen hjlen hij
      have ei : brs[i] = bri := (List.getElem?_eq_some.mp hi).2
      have ej : brs[j] = brj := (List.getElem?_eq_some.mp hj).2
      rwa [ei, ej] at this
    have hstep := getCumulativeAdDuration_succ brs i bri hi
    have hmono := getCumulativeAdDuration_mono brs hd (by omega : i + 1 ≤ j)
    linarith [hwin1.2, hwin2.1]
  · exact hij
  · exfalso
    have hwin1 := (breakHit_iff brs t i bri).mp h1
    have hwin2 := (breakHit_iff brs t j brj).mp h2
    have hilen : i < brs.length := (List.getElem?_eq_some.mp hi).1
    have hjlen : j < brs.length := (List.getElem?_eq_some.mp hj).1
    have hts : brj.timeInSeconds ≤ bri.timeInSeconds := by
      have := List.pairwise_iff_getElem.mp hs j i hjlen hilen hij
      have ei : brs[i] = bri := (List.getElem?_eq_some.mp hi).2
      have ej : brs[j] = brj := (List.getElem?_eq_some.mp hj).2
      rwa [ei, ej] at this
    have hstep := getCumulativeAdDuration_succ brs j brj hj
    have hmono := getCumulativeAdDuration_mono brs hd (by omega : j + 1 ≤ i)
    linarith [hwin1.1, hwin2.2]

-- ---------------------------------------------------------------------------
-- Characterisation of the detection loop
-- ---------------------------------------------------------------------------

/-- Soundness of the `find` loop: a returned pair is a real list entry at
the returned sorted position and its window contains the sample. -/
theorem detectActiveBreakFrom_sound (brs : List AdBreak) (t : ℚ) :
    ∀ (l : List AdBreak) (k i : ℕ) (br : AdBreak),
      (∀ m, l[m]? = brs[k + m]?) →
      detectActiveBreakFrom brs t l k = some (i, br) →
      brs[i]? = some br ∧ breakHit brs t (i, br) = true := by
  intro l
  induction l with
  | nil => intro k i br _ h; simp [detectActiveBreakFrom] at h
  | cons b rest ih =>
    intro k i br hinv h
    rw [detectActiveBreakFrom] at h
    by_cases hb : breakHit brs t (k, b) = true
    · rw [if_pos hb] at h
      have hp : (k, b) = (i, br) := Option.some.inj h
      obtain ⟨rfl, rfl⟩ := Prod.mk.inj hp
      refine ⟨?_, hb⟩
      have := hinv 0
      simpa using this.symm
    · rw [if_neg hb] at h
      exact ih (k + 1) i br
        (fun m => by
          have := hinv (m + 1)
          simpa [Nat.add_comm, Nat.add_left_comm, Nat.add_assoc] using this) h

/-- Completeness of the `find` loop: if position `i` (at or beyond the scan
position) is a hit and every earlier scanned position misses, the loop
returns exactly that pair. -/
theorem detectActiveBreakFrom_complete (brs : List AdBreak) (t : ℚ) :
    ∀ (l : List AdBreak) (k i : ℕ) (br : AdBreak),
      (∀ m, l[m]? = brs[k + m]?) →
      k ≤ i → brs[i]? = some br → breakHit brs t (i, br) = true →
      (∀ j brj, k ≤ j → j < i → brs[j]? = some brj →
        breakHit brs t (j, brj) = false) →
      detectActiveBreakFrom brs t l k = some (i, br) := by
  intro l
  induction l with
  | nil =>
    intro k i br hinv hki hib _ _
    exfalso
    have := hinv (i - k)
    rw [Nat.add_sub_cancel' hki] at this
    rw [hib] at this
    simp at this
  | cons b rest ih =>
    intro k i br hinv hki hib hhit hmiss
    have hkb : brs[k]? = some b := by
      have := hinv 0
      simpa using this.symm
    rw [detectActiveBreakFrom]
    rcases Nat.eq_or_lt_of_le hki with rfl | hlt
    · have : b = br := by rw [hkb] at hib; exact Option.some.inj hib
      subst this
      rw [if_pos hhit]
    · have hbmiss : breakHit brs t (k, b) = false := hmiss k b le_rfl hlt hkb
      rw [if_neg (by simp [hbmiss])]
      exact ih (k + 1) i br
        (fun m => by
          have := hinv (m + 1)
          simpa [Nat.add_comm, Nat.add_left_comm, Nat.add_assoc] using this)
        hlt hib hhit
        (fun j brj hkj hji hjb => hmiss j brj (by omega) hji hjb)

-- ---------------------------------------------------------------------------
-- The timeline arithmetic depends on a break only through its
-- (timeInSeconds, effective duration) pair.
-- ---------------------------------------------------------------------------

/-- The projection of a break that the timeline arithmetic reads. -/
def timelineKey (br : AdBreak) : ℚ × ℚ :=
  (br.timeInSeconds, effDuration br)

/-- Equal effective-duration sequences give equal cumulative durations. -/
theorem getCumulativeAdDuration_congr (brs brs' : List AdBreak)
    (h : brs.map effDuration = brs'.map effDuration) (n : ℕ) :
    getCumulativeAdDuration brs n = getCumulativeAdDuration brs' n := by
  rw [getCumulativeAdDuration_eq_sum, getCumulativeAdDuration_eq_sum, h]

/-- The detection loop returns the same sorted position over two schedules
with the same timeline keys. -/
theorem detectActiveBreakFrom_congr (brs brs' : List AdBreak) (t : ℚ)
    (hmap : brs.map effDuration = brs'.map effDuration) :
    ∀ (l l' : List AdBreak) (k : ℕ),
      l.map timelineKey = l'.map timelineKey →
      (detectActiveBreakFrom brs t l k).map Prod.fst =
        (detectActiveBreakFrom brs' t l' k).map Prod.fst := by
  intro l
  induction l with
  | nil =>
    intro l' k h
    have : l' = [] := by
      cases l' with
      | nil => rfl
      | cons x xs => simp [timelineKey] at h
    subst this
    simp [detectActiveBreakFrom]
  | cons b rest ih =>
    intro l' k h
    cases l' with
    | nil => simp [timelineKey] at h
    | cons b' rest' =>
      simp only [List.map_cons, List.cons.injEq] at h
      have hhit : breakHit brs t (k, b) = breakHit brs' t (k, b') := by
        have hts : b.timeInSeconds = b'.timeInSeconds :=
          congrArg Prod.fst h.1
        have heff : effDuration b = effDuration b' :=
          congrArg Prod.snd h.1
        simp [breakHit, hts, heff,
          getCumulativeAdDuration_congr brs brs' hmap k]
      rw [detectActiveBreakFrom, detectActiveBreakFrom, ← hhit]
      by_cases hb : breakHit brs t (k, b) = true
      · rw [if_pos hb, if_pos hb]
        simp
      · rw [if_neg hb, if_neg hb]
        exact ih rest' (k + 1) h.2

/-- Same timeline keys, same detected position. -/
theorem detectActiveBreak_congr (brs brs' : List AdBreak) (t : ℚ)
    (h : brs.map timelineKey = brs'.map timelineKey) :
    (detectActiveBreak brs t).map Prod.fst =
      (detectActiveBreak brs' t).map Prod.fst := by
  have hmap : brs.map effDuration = brs'.map effDuration := by
    have := congrArg (List.map Prod.snd) h
    simpa [List.map_map, timelineKey, Function.comp] using this
  exact detectActiveBreakFrom_congr brs brs' t hmap brs brs' 0 h

-- ---------------------------------------------------------------------------
-- Lemmas about the client-swap trigger loop
-- ---------------------------------------------------------------------------

/-- Soundness of the trigger scan: a returned pair passed the suppression
guard at its own sorted position and is a real schedule entry there. -/
theorem scanForBreak_sound (brs : List AdBreak) (cd : ℚ) (last : ℤ) (t : ℚ) :
    ∀ (l : List AdBreak) (k j : ℕ) (br : AdBreak),
      (∀ m, l[m]? = brs[k + m]?) →
      scanForBreak cd last t l k = some (j, br) →
      last ≠ (j : ℤ) ∧ brs[j]? = some br := by
  intro l
  induction l with
  | nil => intro k j br _ h; simp [scanForBreak] at h
  | cons b rest ih =>
    intro k j br hinv h
    have hrest : ∀ m, rest[m]? = brs[k + 1 + m]? := fun m => by
      have := hinv (m + 1)
      simpa [Nat.add_comm, Nat.add_left_comm, Nat.add_assoc] using this
    have hk : brs[k]? = some b := by
      have := hinv 0
      simpa using this.symm
    rw [scanForBreak] at h
    split_ifs at h with h1 h2 h3 h4 h5 <;>
      first
        | exact ih (k + 1) j br hrest h
        | · have hp : (k, b) = (j, br) := Option.some.inj h
            obtain ⟨rfl, rfl⟩ := Prod.mk.inj hp
            exact ⟨h1, hk⟩

/-- A swap-session event either leaves the log and the guard untouched, or
triggers exactly one break: one that sits at a sorted position the guard
did not equal, after which the guard holds that break's document index. -/
theorem swapStep_spec (s : SwapState) (e : SwapEvent) :
    ((swapStep s e).2 = [] ∧
      (swapStep s e).1.lastTriggeredBreakIndex = s.lastTriggeredBreakIndex) ∨
    (∃ i br, (swapStep s e).2 = [i] ∧ s.adBreaks[i]? = some br ∧
      s.lastTriggeredBreakIndex ≠ (i : ℤ) ∧
      (swapStep s e).1.lastTriggeredBreakIndex = (br.index : ℤ)) := by
  cases e with
  | adEnded =>
    left
    cases hc : s.currentAd <;> simp [swapStep, hc]
  | sample t =>
    by_cases hc : s.currentAd.isSome
    · left; simp [swapStep, hc]
    · cases hscan : scanForBreak s.contentDuration s.lastTriggeredBreakIndex t
          s.adBreaks 0 with
      | none => left; simp [swapStep, hc, hscan]
      | some p =>
        right
        obtain ⟨i, br⟩ := p
        have hsound := scanForBreak_sound s.adBreaks s.contentDuration
          s.lastTriggeredBreakIndex t s.adBreaks 0 i br (fun m => by simp) hscan
        exact ⟨i, br, by simp [swapStep, hc, hscan], hsound.2, hsound.1,
          by simp [swapStep, hc, hscan]⟩

/-- Swap-session events do not change the schedule or the declared content
duration. -/
theorem swapStep_preserves (s : SwapState) (e : SwapEvent) :
    (swapStep s e).1.adBreaks = s.adBreaks ∧
      (swapStep s e).1.contentDuration = s.contentDuration := by
  cases e with
  | adEnded => cases hc : s.currentAd <;> simp [swapStep, hc]
  | sample t =>
    by_cases hc : s.currentAd.isSome
    · simp [swapStep, hc]
    · cases hscan : scanForBreak s.contentDuration s.lastTriggeredBreakIndex t
          s.adBreaks 0 with
      | none => simp [swapStep, hc, hscan]
      | some p => obtain ⟨i, br⟩ := p; simp [swapStep, hc, hscan]

/-- The counter-carrying form of the alignment check. -/
def alignedFrom : List AdBreak → ℕ → Bool
  | [], _ => true
  | br :: rest, i => (br.index = i) && alignedFrom rest (i + 1)

/-- Decidable alignment assumption under which the suppression guard is
meaningful: every break's original document `index` equals its position in
the sorted schedule (the typical schedule: nothing discarded, declared in
chronological order). -/
def alignedBreaks (brs : List AdBreak) : Bool :=
  alignedFrom brs 0

/-- In an aligned schedule, the entry at a sorted position carries that
position as its document index. -/
theorem alignedFrom_getElem :
    ∀ (l : List AdBreak) (k : ℕ), alignedFrom l k = true →
      ∀ (m : ℕ) (br : AdBreak), l[m]? = some br → br.index = k + m := by
  intro l
  induction l with
  | nil => intro k _ m br h; simp at h
  | cons b rest ih =>
    intro k hal m br h
    simp only [alignedFrom, Bool.and_eq_true, decide_eq_true_eq] at hal
    cases m with
    | zero =>
      simp at h
      subst h
      simpa using hal.1
    | succ m0 =>
      simp only [List.getElem?_cons_succ] at h
      have := ih (k + 1) hal.2 m0 br h
      omega

-- ---------------------------------------------------------------------------
-- Claim C7
-- ---------------------------------------------------------------------------

/-- C7: `parseTimeOffset` is a total function (it is defined for every
string and never throws) that maps the literal token "start" to 0, the
literal token "end" to the content duration, a three-component `H:M:S`
string to `H*3600 + M*60 + S` with missing or non-numeric components
contributing 0 (so "00:01:30" yields 90), and any other input to 0. -/
theorem parseTimeOffset_total_spec :
    (∀ d : ℚ, parseTimeOffset "start" d = 0) ∧
    (∀ d : ℚ, parseTimeOffset "end" d = d) ∧
    (∀ d : ℚ, parseTimeOffset "00:01:30" d = 90) ∧
    (∀ (s : String) (d : ℚ), s ≠ "start" → s ≠ "end" →
      (splitOnColon (jsTrimChars s.toList)).length ≠ 3 →
      parseTimeOffset s d = 0) ∧
    (∀ (s : String) (d : ℚ) (p0 p1 p2 : List Char), s ≠ "start" →
      s ≠ "end" → splitOnColon (jsTrimChars s.toList) = [p0, p1, p2] →
      parseTimeOffset s d =
        qOfInt ((jsParseInt p0).getD 0) * 3600 +
          qOfInt ((jsParseInt p1).getD 0) * 60 + (jsParseFloat p2).getD 0) := by
  refine ⟨fun d => by simp [parseTimeOffset], fun d => by
    simp +decide [parseTimeOffset], fun d => by
    norm_num +decide [parseTimeOffset, splitOnColon, jsTrimChars, isJsSpace,
      jsParseInt, jsParseFloat, takeDigits, digitsToNat, digitVal, qOfInt],
    ?_, ?_⟩
  · intro s d h1 h2 h3
    rw [parseTimeOffset, if_neg h1, if_neg h2]
    split
    · rename_i p0 p1 p2 heq
      exact absurd (by rw [heq]; rfl) h3
    · rfl
  · intro s d p0 p1 p2 h1 h2 heq
    rw [parseTimeOffset, if_neg h1, if_neg h2, heq]

/-- Witness for C7: the malformed-input rule applied at the concrete input
"garbage" (one component, not three), together with the intact
hypotheses. -/
theorem parseTimeOffset_total_spec_witness :
    ("garbage" ≠ "start") ∧
      (splitOnColon (jsTrimChars "garbage".toList)).length ≠ 3 ∧
      parseTimeOffset "garbage" 596 = 0 :=
  ⟨by decide, by decide,
    parseTimeOffset_total_spec.2.2.2.1 "garbage" 596 (by decide) (by decide)
      (by decide)⟩

-- ---------------------------------------------------------------------------
-- Claim C2
-- ---------------------------------------------------------------------------

/-- The quantity named by the claim's words: the sum of the `durationSeconds`
fields themselves over the breaks at positions strictly below `n` (an
absent field contributes nothing). Stated for comparison with
`getCumulativeAdDuration`, which instead sums `duration || 30`. -/
def declaredDurationSum (brs : List AdBreak) (n : ℕ) : ℚ :=
  ((brs.take n).map (fun br => br.duration.getD 0)).sum

/-- A break whose duration field resolved to exactly 0. -/
def c2ZeroBreak : AdBreak :=
  { index := 0, timeOffset := "start", timeInSeconds := 0,
    breakId := "break_0", vastUrl := some (.fromString "u0"),
    duration := some 0, skipOffset := some 5, clickThrough := none }

/-- Counterexample for C2 as stated: for a single break whose
`durationSeconds` is the explicit number 0, `getCumulativeAdDuration(1)` is
30 (the `|| 30` default), not the 0 the claimed sum of `durationSeconds`
gives. -/
theorem getCumulativeAdDuration_ne_declared_sum :
    getCumulativeAdDuration [c2ZeroBreak] 1 = 30 ∧
      declaredDurationSum [c2ZeroBreak] 1 = 0 ∧
      c2ZeroBreak.duration = some 0 := by
  refine ⟨?_, ?_, by decide⟩
  · norm_num [getCumulativeAdDuration, effDuration, jsOrQ, c2ZeroBreak]
  · norm_num [declaredDurationSum, c2ZeroBreak]

/-- The three-break schedule of the claim's example, with resolved
durations 30, 45 and 20. -/
def c2Resolved : List AdBreak :=
  [{ index := 0, timeOffset := "start", timeInSeconds := 0,
     breakId := "break_0", vastUrl := some (.fromString "u0"),
     duration := some 30, skipOffset := some 5, clickThrough := none },
   { index := 1, timeOffset := "00:05:00", timeInSeconds := 300,
     breakId := "break_1", vastUrl := some (.fromString "u1"),
     duration := some 45, skipOffset := some 5, clickThrough := none },
   { index := 2, timeOffset := "00:08:00", timeInSeconds := 480,
     breakId := "break_2", vastUrl := some (.fromString "u2"),
     duration := some 20, skipOffset := some 5, clickThrough := none }]

/-- C2 (amended): `getCumulativeAdDuration(n)` is the prefix sum, bounded by
`min(n, length)`, of the effective durations `duration || 30`; when every
break in that prefix carries a resolved nonzero duration this equals the
sum of the `durationSeconds` fields, and for resolved durations
[30, 45, 20] the value at `n = 2` is 75, excluding the third break. The
function is pure: its value is recomputed from the current duration fields
of the list it is handed, with no cached state. -/
theorem getCumulativeAdDuration_spec :
    (∀ (brs : List AdBreak) (n : ℕ),
      getCumulativeAdDuration brs n = ((brs.take n).map effDuration).sum) ∧
    (∀ (brs : List AdBreak) (n : ℕ),
      (∀ br ∈ brs.take n, br.duration.getD 0 ≠ 0) →
      getCumulativeAdDuration brs n = declaredDurationSum brs n) ∧
    getCumulativeAdDuration c2Resolved 2 = 75 := by
  refine ⟨?_, ?_, ?_⟩
  · intro brs n
    rw [getCumulativeAdDuration_eq_sum, List.map_take]
  · intro brs n h
    rw [getCumulativeAdDuration_eq_sum, ← List.map_take, declaredDurationSum]
    congr 1
    refine List.map_congr_left ?_
    intro br hbr
    have hne := h br hbr
    cases hdur : br.duration with
    | none => rw [hdur] at hne; simp at hne
    | some d =>
      rw [hdur] at hne
      simp only [Option.getD_some] at hne
      simp [effDuration, jsOrQ, hdur, hne]
  · norm_num [getCumulativeAdDuration, effDuration, jsOrQ, c2Resolved]

/-- Witness for C2: the resolved-durations rule applied to the concrete
[30, 45, 20] schedule at `n = 2`. -/
theorem getCumulativeAdDuration_spec_witness :
    (∀ br ∈ c2Resolved.take 2, br.duration.getD 0 ≠ 0) ∧
      getCumulativeAdDuration c2Resolved 2 = declaredDurationSum c2Resolved 2 :=
  ⟨by decide, getCumulativeAdDuration_spec.2.1 c2Resolved 2 (by decide)⟩

-- ---------------------------------------------------------------------------
-- Claim C9
-- ---------------------------------------------------------------------------

/-- A creative declaring a positive duration and a skip delay of exactly
0. -/
def c9Creative : VastCreative :=
  { duration := some 10, skipDelay := some 0,
    videoClickThroughURLTemplate := none }

/-- A creative declaring a negative duration. -/
def c9NegCreative : VastCreative :=
  { duration := some (-10), skipDelay := some 3,
    videoClickThroughURLTemplate := none }

/-- Counterexample for C9 as stated: the resolver (`AdTracker.initialize`)
computes `skipOffset: creative.skipDelay || 5`, so a declared skip delay of
exactly 0 — present and non-negative — yields the 5-second default instead
of 0; and `duration: creative.duration || 30` passes a negative declared
duration through instead of replacing it by the default. -/
theorem extractAdMetadata_zero_skip_delay :
    (extractAdMetadata c9Creative).skipOffset = 5 ∧
      c9Creative.skipDelay = some 0 ∧ (5 : ℚ) ≠ 0 ∧
      (extractAdMetadata c9NegCreative).duration = -10 ∧
      (-10 : ℚ) ≠ 30 := by
  refine ⟨by decide, by decide, by decide, ?_, by decide⟩
  decide

/-- C9 (amended): in the class-based resolver (`AdTracker.initialize`,
src/app.js), `durationSeconds` is the declared duration when it is nonzero
— negative values pass through — and 30 otherwise, and
`skipOffsetSeconds` is the declared skip delay when it is nonzero and 5
otherwise, so a declared delay of exactly 0 yields the default. The
client-swap path (src/unnamed/part_000, `triggerAdBreak`) instead follows
the positive-duration and present-and-non-negative rules the claim states,
but with a 15-second duration default. -/
theorem extractAdMetadata_spec :
    (∀ (c : VastCreative) (d : ℚ), c.duration = some d → d ≠ 0 →
      (extractAdMetadata c).duration = d) ∧
    (∀ c : VastCreative, c.duration = none ∨ c.duration = some 0 →
      (extractAdMetadata c).duration = 30) ∧
    (∀ (c : VastCreative) (d : ℚ), c.skipDelay = some d → d ≠ 0 →
      (extractAdMetadata c).skipOffset = d) ∧
    (∀ c : VastCreative, c.skipDelay = none ∨ c.skipDelay = some 0 →
      (extractAdMetadata c).skipOffset = 5) ∧
    (∀ (c : VastCreative) (d : ℚ), c.skipDelay = some d → 0 ≤ d →
      clientSwapSkipOffset c = d) ∧
    (∀ (c : VastCreative) (d : ℚ), c.skipDelay = some d → d < 0 →
      clientSwapSkipOffset c = 5) ∧
    (∀ c : VastCreative, c.skipDelay = none → clientSwapSkipOffset c = 5) ∧
    (∀ (c : VastCreative) (d : ℚ), c.duration = some d → 0 < d →
      clientSwapDuration c = d) ∧
    (∀ (c : VastCreative) (d : ℚ), c.duration = some d → ¬ 0 < d →
      clientSwapDuration c = 15) ∧
    (∀ c : VastCreative, c.duration = none → clientSwapDuration c = 15) := by
  refine ⟨?_, ?_, ?_, ?_, ?_, ?_, ?_, ?_, ?_, ?_⟩
  · intro c d h hne; simp [extractAdMetadata, jsOrQ, h, hne]
  · rintro c (h | h) <;> simp [extractAdMetadata, jsOrQ, h]
  · intro c d h hne; simp [extractAdMetadata, jsOrQ, h, hne]
  · rintro c (h | h) <;> simp [extractAdMetadata, jsOrQ, h]
  · intro c d h hd; simp [clientSwapSkipOffset, h, hd]
  · intro c d h hd; simp [clientSwapSkipOffset, h, not_le.mpr hd]
  · intro c h; simp [clientSwapSkipOffset, h]
  · intro c d h hd; simp [clientSwapDuration, h, hd]
  · intro c d h hd; simp [clientSwapDuration, h, hd]
  · intro c h; simp [clientSwapDuration, h]

/-- Witness for C9: the nonzero-duration and zero-skip rules applied to a
concrete creative with duration 10 and skip delay 0. -/
theorem extractAdMetadata_spec_witness :
    (extractAdMetadata c9Creative).duration = 10 ∧
      (extractAdMetadata c9Creative).skipOffset = 5 :=
  ⟨extractAdMetadata_spec.1 c9Creative 10 (by decide) (by decide),
    extractAdMetadata_spec.2.2.2.1 c9Creative (Or.inr (by decide))⟩

-- ---------------------------------------------------------------------------
-- Claim C10
-- ---------------------------------------------------------------------------

/-- C10: for a break whose duration field is 0 or absent, every piece of
timeline arithmetic substitutes the 30-second default: the cumulative sum
advances by 30 across it, its detection window is exactly the half-open
30-second interval after its shifted start (and in particular never empty),
the skip target adds 30, and replacing the resolved-0 field by an absent
field changes neither the cumulative durations nor the detected position of
any sample. -/
theorem zeroDuration_defaults :
    ∀ (brs : List AdBreak) (i : ℕ) (br : AdBreak), brs[i]? = some br →
      br.duration = some 0 ∨ br.duration = none →
      effDuration br = 30 ∧
      getCumulativeAdDuration brs (i + 1) =
        getCumulativeAdDuration brs i + 30 ∧
      (∀ t : ℚ, breakHit brs t (i, br) = true ↔
        br.timeInSeconds + getCumulativeAdDuration brs i ≤ t ∧
          t < br.timeInSeconds + getCumulativeAdDuration brs i + 30) ∧
      br.timeInSeconds + getCumulativeAdDuration brs i <
        br.timeInSeconds + getCumulativeAdDuration brs i + 30 ∧
      (∀ s : ManagerState, s.adBreaks = brs → s.currentAdBreak = some br →
        skipCurrentAd s true = (s, [PlayerEffect.trackSkip,
          PlayerEffect.seekTo (br.timeInSeconds +
            getCumulativeAdDurationI brs (findBreakIndex brs br.breakId) +
            30)])) ∧
      (∀ n, getCumulativeAdDuration
          (brs.set i { br with duration := none }) n =
        getCumulativeAdDuration brs n) ∧
      (∀ t, (detectActiveBreak (brs.set i { br with duration := none }) t).map
          Prod.fst = (detectActiveBreak brs t).map Prod.fst) := by
  intro brs i br hib hdur
  have hilen : i < brs.length := (List.getElem?_eq_some.mp hib).1
  have heff : effDuration br = 30 := by
    rcases hdur with h | h <;> simp [effDuration, jsOrQ, h]
  have heffset : effDuration { br with duration := none } = 30 := by
    simp [effDuration, jsOrQ]
  have hmapeff : (brs.set i { br with duration := none }).map effDuration =
      brs.map effDuration := by
    refine List.ext_getElem? ?_
    intro m
    by_cases hm : m = i
    · subst hm
      rw [List.getElem?_map, List.getElem?_map,
        List.getElem?_set_self hilen, hib]
      simp [heff, heffset]
    · rw [List.getElem?_map, List.getElem?_map,
        List.getElem?_set_ne (by omega : i ≠ m)]
  have hmapkey : brs.map timelineKey =
      (brs.set i { br with duration := none }).map timelineKey := by
    refine List.ext_getElem? ?_
    intro m
    by_cases hm : m = i
    · subst hm
      rw [List.getElem?_map, List.getElem?_map,
        List.getElem?_set_self hilen, hib]
      simp [timelineKey, heff, heffset]
    · rw [List.getElem?_map, List.getElem?_map,
        List.getElem?_set_ne (by omega : i ≠ m)]
  refine ⟨heff, ?_, ?_, ?_, ?_, ?_, ?_⟩
  · rw [getCumulativeAdDuration_succ brs i br hib, heff]
  · intro t
    rw [breakHit_iff, heff]
  · linarith
  · intro s hsb hcur
    cases s with
    | mk adBreaks currentAdBreak isInAdBreak =>
      simp only at hsb hcur
      subst hsb
      subst hcur
      simp [skipCurrentAd, heff]
  · intro n
    exact getCumulativeAdDuration_congr _ _ hmapeff n
  · intro t
    exact detectActiveBreak_congr _ _ t hmapkey.symm

/-- A two-break schedule whose second break resolved to duration 0. -/
def c10Breaks : List AdBreak :=
  [{ index := 0, timeOffset := "start", timeInSeconds := 0,
     breakId := "break_0", vastUrl := some (.fromString "u0"),
     duration := some 30, skipOffset := some 5, clickThrough := none },
   { index := 1, timeOffset := "00:05:00", timeInSeconds := 300,
     breakId := "break_1", vastUrl := some (.fromString "u1"),
     duration := some 0, skipOffset := some 5, clickThrough := none }]

/-- Witness for C10: the defaulting facts at the concrete schedule whose
second break resolved to duration 0. -/
theorem zeroDuration_defaults_witness :
    effDuration
        { index := 1, timeOffset := "00:05:00", timeInSeconds := 300,
          breakId := "break_1", vastUrl := some (.fromString "u1"),
          duration := some 0, skipOffset := some 5,
          clickThrough := none } = 30 :=
  (zeroDuration_defaults c10Breaks 1
    { index := 1, timeOffset := "00:05:00", timeInSeconds := 300,
      breakId := "break_1", vastUrl := some (.fromString "u1"),
      duration := some 0, skipOffset := some 5, clickThrough := none }
    (by decide) (Or.inl (by decide))).1

-- ---------------------------------------------------------------------------
-- Claim C6
-- ---------------------------------------------------------------------------

/-- The active mid-roll break of the skip scenario: shifted start 330
(declared 300 plus the 30 seconds of the resolved pre-roll), duration
30. -/
def c6Mid : AdBreak :=
  { index := 1, timeOffset := "00:05:00", timeInSeconds := 300,
    breakId := "break_1", vastUrl := some (.fromString "u1"),
    duration := some 30, skipOffset := some 5, clickThrough := none }

/-- The manager state of end-to-end scenario C: two breaks, the mid-roll
one active. -/
def c6State : ManagerState :=
  { adBreaks :=
      [{ index := 0, timeOffset := "start", timeInSeconds := 0,
         breakId := "break_0", vastUrl := some (.fromString "u0"),
         duration := some 30, skipOffset := some 5, clickThrough := none },
       c6Mid]
    currentAdBreak := some c6Mid
    isInAdBreak := true }

/-- C6: with an active break, `skipCurrentAd` leaves the manager state
untouched and produces exactly two effects — one skip tracking call and one
seek — whose target is the break's shifted start (`timeInSeconds` plus the
cumulative duration of prior breaks, looked up at the active break's
position) plus its resolved duration; in scenario C (shifted start 330,
duration 30) the single seek goes to 360. -/
theorem skipCurrentAd_spec :
    (∀ (s : ManagerState) (br : AdBreak), s.currentAdBreak = some br →
      skipCurrentAd s true = (s, [PlayerEffect.trackSkip,
        PlayerEffect.seekTo (br.timeInSeconds +
          getCumulativeAdDurationI s.adBreaks
            (findBreakIndex s.adBreaks br.breakId) + effDuration br)])) ∧
    skipCurrentAd c6State true =
      (c6State, [PlayerEffect.trackSkip, PlayerEffect.seekTo 360]) := by
  constructor
  · intro s br hcur
    cases s with
    | mk adBreaks currentAdBreak isInAdBreak =>
      simp only at hcur
      subst hcur
      simp [skipCurrentAd]
  · norm_num +decide [skipCurrentAd, c6State, c6Mid, findBreakIndex,
      getCumulativeAdDurationI, getCumulativeAdDuration, effDuration, jsOrQ]

/-- Witness for C6: the general skip rule applied to the concrete scenario
state. -/
theorem skipCurrentAd_spec_witness :
    skipCurrentAd c6State true = (c6State, [PlayerEffect.trackSkip,
      PlayerEffect.seekTo (c6Mid.timeInSeconds +
        getCumulativeAdDurationI c6State.adBreaks
          (findBreakIndex c6State.adBreaks c6Mid.breakId) +
        effDuration c6Mid)]) :=
  skipCurrentAd_spec.1 c6State c6Mid (by decide)

-- ---------------------------------------------------------------------------
-- Claim C5
-- ---------------------------------------------------------------------------

/-- C5: the reconciler invariant `isInAdBreak = (currentAdBreak present)`
holds after construction and is preserved by every completed operation
(setAdBreaks, update, the synchronous entry of startAdBreak, endAdBreak,
reset); and for a schedule sorted non-decreasingly by `timeInSeconds` with
nonnegative effective durations, the shifted windows are pairwise
non-overlapping, so at most one break matches any clock sample. -/
theorem managerInv_preserved :
    managerInv initialManagerState ∧
    (∀ (op : ManagerOp) (s : ManagerState), managerInv s →
      managerInv (managerStep op s)) ∧
    (∀ (brs : List AdBreak) (t : ℚ) (i j : ℕ) (bri brj : AdBreak),
      List.Pairwise (fun a b => a.timeInSeconds ≤ b.timeInSeconds) brs →
      (∀ br ∈ brs, 0 ≤ effDuration br) →
      brs[i]? = some bri → brs[j]? = some brj →
      breakHit brs t (i, bri) = true → breakHit brs t (j, brj) = true →
      i = j) := by
  refine ⟨by simp [managerInv, initialManagerState], ?_, ?_⟩
  · intro op s hinv
    cases op with
    | setBreaks brs => simpa [managerStep, setAdBreaks, managerInv] using hinv
    | start br => simp [managerStep, startAdBreakEntry, managerInv]
    | endBreak => simp [managerStep, endAdBreakOp, managerInv]
    | reset => simp [managerStep, resetManager, initialManagerState, managerInv]
    | update t =>
      simp only [managerStep, updateManager]
      by_cases hlen : s.adBreaks.length = 0
      · simpa [hlen] using hinv
      · rw [if_neg hlen]
        cases hdet : detectActiveBreak s.adBreaks t with
        | none =>
          by_cases hin : s.isInAdBreak
          · simp [hin, endAdBreakOp, managerInv]
          · simpa [hin] using hinv
        | some p =>
          by_cases hin : s.isInAdBreak
          · simpa [hin] using hinv
          · simp [hin, startAdBreakEntry, managerInv]
  · intro brs t i j bri brj hs hd hi hj h1 h2
    exact breakHit_disjoint brs hs hd hi hj h1 h2

/-- Witness for C5: invariant preservation applied to a concrete completed
operation (an exit transition from the freshly constructed manager). -/
theorem managerInv_preserved_witness :
    managerInv (managerStep ManagerOp.endBreak initialManagerState) :=
  managerInv_preserved.2.1 ManagerOp.endBreak initialManagerState
    (by simp [managerInv, initialManagerState])

-- ---------------------------------------------------------------------------
-- Claim C1
-- ---------------------------------------------------------------------------

/-- The scenario-B schedule: a pre-roll break whose duration resolved to 30
and a mid-roll break declared at 300 content seconds, so the mid-roll's
shifted window starts at 330. -/
def c1Breaks : List AdBreak :=
  [{ index := 0, timeOffset := "start", timeInSeconds := 0,
     breakId := "break_0", vastUrl := some (.fromString "u0"),
     duration := some 30, skipOffset := some 5, clickThrough := none },
   { index := 1, timeOffset := "00:05:00", timeInSeconds := 300,
     breakId := "break_1", vastUrl := some (.fromString "u1"),
     duration := some 30, skipOffset := some 5, clickThrough := none }]

/-- The mid-roll break of the scenario-B schedule. -/
def c1Mid : AdBreak :=
  { index := 1, timeOffset := "00:05:00", timeInSeconds := 300,
    breakId := "break_1", vastUrl := some (.fromString "u1"),
    duration := some 30, skipOffset := some 5, clickThrough := none }

/-- C1: in stream-relative mode, under the schedule invariant (sorted
non-decreasingly by `timeInSeconds`, nonnegative effective durations), a
clock sample detects the break at sorted position `i` exactly when it lies
in the half-open shifted window
`[timeInSeconds + cumulative(i), timeInSeconds + cumulative(i) + duration)`;
in scenario B the sample 329.9 matches no break and the sample 330.1
matches the mid-roll break at sorted position 1. -/
theorem detectActiveBreak_iff_window :
    (∀ (brs : List AdBreak) (t : ℚ) (i : ℕ) (br : AdBreak),
      List.Pairwise (fun a b => a.timeInSeconds ≤ b.timeInSeconds) brs →
      (∀ b ∈ brs, 0 ≤ effDuration b) →
      (detectActiveBreak brs t = some (i, br) ↔
        (brs[i]? = some br ∧
          br.timeInSeconds + getCumulativeAdDuration brs i ≤ t ∧
          t < br.timeInSeconds + getCumulativeAdDuration brs i +
            effDuration br))) ∧
    detectActiveBreak c1Breaks (mkRat 3299 10) = none ∧
    detectActiveBreak c1Breaks (mkRat 3301 10) = some (1, c1Mid) := by
  refine ⟨?_, ?_, ?_⟩
  · intro brs t i br hs hd
    constructor
    · intro h
      have hsound := detectActiveBreakFrom_sound brs t brs 0 i br
        (fun m => by simp) h
      exact ⟨hsound.1, (breakHit_iff brs t i br).mp hsound.2⟩
    · rintro ⟨hib, hwin⟩
      refine detectActiveBreakFrom_complete brs t brs 0 i br
        (fun m => by simp) (Nat.zero_le i) hib
        ((breakHit_iff brs t i br).mpr hwin) ?_
      intro j brj _ hji hjb
      cases hhit : breakHit brs t (j, brj) with
      | false => rfl
      | true =>
        exact absurd
          (breakHit_disjoint brs hs hd hjb hib hhit
            ((breakHit_iff brs t i br).mpr hwin))
          (by omega)
  · norm_num [detectActiveBreak, detectActiveBreakFrom, breakHit,
      getCumulativeAdDuration, effDuration, jsOrQ, c1Breaks]
  · norm_num [detectActiveBreak, detectActiveBreakFrom, breakHit,
      getCumulativeAdDuration, effDuration, jsOrQ, c1Breaks, c1Mid]

/-- Witness for C1: the window characterisation applied at the scenario-B
schedule and the concrete sample 330.1, with the sortedness and
nonnegativity hypotheses discharged on the concrete list. -/
theorem detectActiveBreak_iff_window_witness :
    detectActiveBreak c1Breaks (mkRat 3301 10) = some (1, c1Mid) ↔
      (c1Breaks[1]? = some c1Mid ∧
        c1Mid.timeInSeconds + getCumulativeAdDuration c1Breaks 1 ≤
          mkRat 3301 10 ∧
        mkRat 3301 10 < c1Mid.timeInSeconds +
          getCumulativeAdDuration c1Breaks 1 + effDuration c1Mid) :=
  detectActiveBreak_iff_window.1 c1Breaks (mkRat 3301 10) 1 c1Mid
    (by decide) (by decide)

-- ---------------------------------------------------------------------------
-- Claim C4
-- ---------------------------------------------------------------------------

/-- The break whose metadata resolution is in flight in the late-resolution
scenario. -/
def c4Origin : AdBreak :=
  { index := 0, timeOffset := "start", timeInSeconds := 0,
    breakId := "break_0", vastUrl := some (.fromString "u0"),
    duration := some 30, skipOffset := some 5, clickThrough := none }

/-- The different break that has become active by the time the resolution
completes. -/
def c4Active : AdBreak :=
  { index := 1, timeOffset := "00:05:00", timeInSeconds := 300,
    breakId := "break_1", vastUrl := some (.fromString "u1"),
    duration := some 30, skipOffset := some 5, clickThrough := none }

/-- The manager state at resolution-completion time: the originating break
has exited and a different break is active. -/
def c4State : ManagerState :=
  { adBreaks := [c4Origin, c4Active]
    currentAdBreak := some c4Active
    isInAdBreak := true }

/-- The metadata the late resolution carries. -/
def c4Meta : AdMetadata :=
  { clickThrough := none, duration := 17, skipOffset := 7 }

/-- Counterexample for C4 as stated: when the late resolution for break_0
completes while break_1 is active, no break-identity comparison discards
it — the result is applied to the currently active break: break_1's live
duration becomes the stale 17 (and break_0's master-list entry is updated
too). -/
theorem applyResolvedMetadata_no_identity_guard :
    c4State.currentAdBreak = some c4Active ∧
      c4Active.breakId ≠ c4Origin.breakId ∧
      (applyResolvedMetadata c4State c4Origin (some c4Meta)).map
        (fun s => s.currentAdBreak.map (fun br => br.duration)) =
        some (some (some 17)) := by
  refine ⟨by decide, by decide, by decide⟩

/-- C4 (amended): the late-resolution handling has no break-identity
guard. A null (failed) resolution changes nothing. A late non-null result
arriving with no active break faults on the null active pointer before any
field is written (the state is unchanged because the rejection escapes). A
late result arriving while some break is active is applied to that break —
whichever it is — and never changes `isInAdBreak` or the presence of the
active pointer, so it cannot re-activate the exited break. -/
theorem applyResolvedMetadata_spec :
    (∀ (s : ManagerState) (origin : AdBreak),
      applyResolvedMetadata s origin none = some s) ∧
    (∀ (s : ManagerState) (origin : AdBreak) (m : AdMetadata),
      s.currentAdBreak = none →
      applyResolvedMetadata s origin (some m) = none) ∧
    (∀ (s : ManagerState) (origin : AdBreak) (md : Option AdMetadata)
        (s' : ManagerState), applyResolvedMetadata s origin md = some s' →
      s'.isInAdBreak = s.isInAdBreak ∧
        s'.currentAdBreak.isSome = s.currentAdBreak.isSome) ∧
    (∀ (s : ManagerState) (origin : AdBreak) (m : AdMetadata)
        (active : AdBreak), s.currentAdBreak = some active →
      (applyResolvedMetadata s origin (some m)).map
          ManagerState.currentAdBreak =
        some (some (applyBreakMetadata active m))) := by
  refine ⟨fun s origin => rfl, ?_, ?_, ?_⟩
  · intro s origin m hcur
    simp [applyResolvedMetadata, hcur]
  · intro s origin md s' h
    cases md with
    | none =>
      simp only [applyResolvedMetadata] at h
      cases h
      exact ⟨rfl, rfl⟩
    | some m =>
      cases hcur : s.currentAdBreak with
      | none => simp [applyResolvedMetadata, hcur] at h
      | some active =>
        simp only [applyResolvedMetadata, hcur] at h
        cases h
        simp [hcur]
  · intro s origin m active hcur
    simp [applyResolvedMetadata, hcur]

/-- Witness for C4: the applied-to-active-break rule at the concrete
late-resolution scenario. -/
theorem applyResolvedMetadata_spec_witness :
    (applyResolvedMetadata c4State c4Origin (some c4Meta)).map
        ManagerState.currentAdBreak =
      some (some (applyBreakMetadata c4Active c4Meta)) :=
  applyResolvedMetadata_spec.2.2.2 c4State c4Origin c4Meta c4Active
    (by decide)

-- ---------------------------------------------------------------------------
-- Claim C8
-- ---------------------------------------------------------------------------

/-- A kept descriptor records the loop index it was built at and derives
its generated id from that index. -/
theorem mkVmapDescriptor_inv (cd : ℚ) (i : ℕ) (raw : RawAdBreak)
    (br : AdBreak) (h : mkVmapDescriptor cd i raw = some br) :
    br.index = i ∧
      br.breakId = jsOrString raw.breakId ("break_" ++ toString i) := by
  simp only [mkVmapDescriptor] at h
  cases hv : extractVastUrl raw with
  | none => rw [hv] at h; cases h
  | some v =>
    rw [hv] at h
    cases h
    exact ⟨rfl, rfl⟩

/-- A document whose first entry has no ad source (discarded) and whose
second entry is kept and has no break id. -/
def c8Vmap : List RawAdBreak :=
  [{ timeOffset := some "00:00:10", breakId := none, adSource := none },
   { timeOffset := some "00:01:00", breakId := none,
     adSource := some { adTagURI := some (.str "https://vast.example") } }]

/-- Counterexample for C8 as stated: after the first document entry is
discarded for lacking a locator, the single kept entry is the first kept
entry (kept position 0), yet it carries ordinal index 1 — the original
document position, which discarded entries do advance — and its generated
id is "break_1", not "break_0". -/
theorem buildAdBreakList_index_counts_discarded :
    (buildAdBreakList c8Vmap 596).map (fun br => (br.index, br.breakId)) =
      [(1, "break_1")] ∧
      ((1 : ℕ), "break_1") ≠ ((0 : ℕ), "break_0") := by
  refine ⟨?_, by decide⟩
  norm_num +decide [buildAdBreakList, mkVmapDescriptor, extractVastUrl,
    jsOrString, parseTimeOffset, splitOnColon, jsTrimChars, isJsSpace,
    jsParseInt, jsParseFloat, takeDigits, digitsToNat, digitVal, qOfInt,
    c8Vmap, List.enum, List.enumFrom, List.filterMap_cons, List.filterMap_nil,
    List.mergeSort_singleton]

/-- C8 (amended): every descriptor `buildAdBreakList` returns carries as
`index` the position of its source entry in the original document —
counting the entries later discarded for lacking a locator — and is exactly
the descriptor built from that entry; in particular, when the source
provides no id, the generated id is "break_" followed by that original
document position, not by the position among kept entries. -/
theorem buildAdBreakList_ordinals :
    ∀ (vmap : List RawAdBreak) (cd : ℚ) (br : AdBreak),
      br ∈ buildAdBreakList vmap cd →
      ∃ raw, vmap[br.index]? = some raw ∧
        mkVmapDescriptor cd br.index raw = some br ∧
        br.breakId = jsOrString raw.breakId
          ("break_" ++ toString br.index) := by
  intro vmap cd br hmem
  rw [buildAdBreakList, List.mem_mergeSort] at hmem
  rw [List.mem_filterMap] at hmem
  obtain ⟨⟨i, raw⟩, hmem, hmk⟩ := hmem
  obtain ⟨hlen, hraw⟩ := List.mem_enum hmem
  obtain ⟨hidx, hid⟩ := mkVmapDescriptor_inv cd i raw br hmk
  subst hidx
  refine ⟨raw, ?_, hmk, hid⟩
  rw [List.getElem?_eq_getElem hlen, hraw]

/-- A one-entry document whose entry is kept (pre-roll, no declared id). -/
def c8KeptVmap : List RawAdBreak :=
  [{ timeOffset := none, breakId := none,
     adSource := some { adTagURI := some (.str "https://vast.example") } }]

/-- Witness for C8: the origin rule applied to the single descriptor built
from a concrete one-entry document. -/
theorem buildAdBreakList_ordinals_witness :
    ∃ raw, c8KeptVmap[(0 : ℕ)]? = some raw ∧
      mkVmapDescriptor 596 0 raw = some
        { index := 0, timeOffset := "start", timeInSeconds := 0,
          breakId := "break_0",
          vastUrl := some (.fromString "https://vast.example"),
          duration := some 30, skipOffset := some 5, clickThrough := none } ∧
      ({ index := 0, timeOffset := "start", timeInSeconds := 0,
          breakId := "break_0",
          vastUrl := some (.fromString "https://vast.example"),
          duration := some 30, skipOffset := some 5,
          clickThrough := none } : AdBreak).breakId =
        jsOrString raw.breakId ("break_" ++ toString 0) :=
  buildAdBreakList_ordinals c8KeptVmap 596
    { index := 0, timeOffset := "start", timeInSeconds := 0,
      breakId := "break_0",
      vastUrl := some (.fromString "https://vast.example"),
      duration := some 30, skipOffset := some 5, clickThrough := none }
    (by simp +decide [buildAdBreakList, c8KeptVmap, List.enum, List.enumFrom,
      List.filterMap_cons, List.filterMap_nil, mkVmapDescriptor,
      extractVastUrl, jsOrString, parseTimeOffset, List.mergeSort_singleton])

-- ---------------------------------------------------------------------------
-- Claim C3
-- ---------------------------------------------------------------------------

/-- First mid-roll break of the replay scenario (document index 0, declared
at 100 s). -/
def c3BrA : AdBreak :=
  { index := 0, timeOffset := "00:01:40", timeInSeconds := 100,
    breakId := "break_0", vastUrl := some (.fromString "u0"),
    duration := none, skipOffset := none, clickThrough := none }

/-- Second mid-roll break of the replay scenario (document index 1,
declared at 300 s). -/
def c3BrB : AdBreak :=
  { index := 1, timeOffset := "00:05:00", timeInSeconds := 300,
    breakId := "break_1", vastUrl := some (.fromString "u1"),
    duration := none, skipOffset := none, clickThrough := none }

/-- A fresh client-swap session over the two mid-roll breaks. -/
def c3State : SwapState :=
  { adBreaks := [c3BrA, c3BrB], contentDuration := 596, currentAd := none,
    lastTriggeredBreakIndex := -1 }

/-- Play into break A, finish its ad, play into break B, finish its ad,
then seek back into break A's window. -/
def c3Events : List SwapEvent :=
  [.sample 100, .adEnded, .sample 300, .adEnded, .sample 100]

/-- Counterexample for C3 as stated: after break A (sorted position 0) has
been triggered and exited and break B has been triggered in between, a
later clock sample falling again inside A's original trigger window
triggers A a second time — the trigger log is [0, 1, 0], because the
scalar `lastTriggeredBreakIndex` was overwritten by B's trigger. -/
theorem clientSwap_retriggers_after_intervening_break :
    (runSwapEvents c3State c3Events).2 = [0, 1, 0] ∧
      c3State.adBreaks[0]? = some c3BrA ∧
      |(100 : ℚ) - c3BrA.timeInSeconds| ≤ adTriggerTolerance := by
  refine ⟨?_, by decide, ?_⟩
  · norm_num [runSwapEvents, swapStep, scanForBreak, c3State, c3Events,
      c3BrA, c3BrB, adTriggerTolerance]
  · norm_num [c3BrA, adTriggerTolerance]

/-- C3 (amended): in content-relative client-swap mode the suppression
guard holds a single scalar, so what is guaranteed is only that two
consecutive triggers are never of the same break: over any event sequence
from a state whose schedule is aligned (each break's document index equals
its sorted position), the trigger log never repeats a break without a
different break triggered in between — and, as the counterexample shows,
once another break has been triggered the guard is gone and a sample
re-entering the first break's window does retrigger it. -/
theorem clientSwap_no_consecutive_retrigger :
    ∀ (evs : List SwapEvent) (s : SwapState),
      alignedBreaks s.adBreaks = true →
      List.Chain' (fun a b => a ≠ b)
        (s.lastTriggeredBreakIndex ::
          List.map (fun n : ℕ => (n : ℤ)) (runSwapEvents s evs).2) := by
  intro evs
  induction evs with
  | nil =>
    intro s _
    simp [runSwapEvents]
  | cons e es ih =>
    intro s hal
    have hpres := swapStep_preserves s e
    have hal1 : alignedBreaks (swapStep s e).1.adBreaks = true := by
      rw [hpres.1]; exact hal
    have hrun : (runSwapEvents s (e :: es)).2 =
        (swapStep s e).2 ++ (runSwapEvents (swapStep s e).1 es).2 := rfl
    rcases swapStep_spec s e with ⟨hlog, hlast⟩ | ⟨i, br, hlog, hib, hne, hlast⟩
    · rw [hrun, hlog]
      simp only [List.nil_append]
      have := ih (swapStep s e).1 hal1
      rwa [hlast] at this
    · rw [hrun, hlog]
      simp only [List.cons_append, List.nil_append, List.map_cons]
      rw [List.chain'_cons]
      refine ⟨hne, ?_⟩
      have halign : br.index = i := by
        have := alignedFrom_getElem s.adBreaks 0 hal i br hib
        simpa using this
      have := ih (swapStep s e).1 hal1
      rw [hlast, halign] at this
      exact this

/-- Witness for C3: the no-consecutive-retrigger guarantee applied to the
concrete aligned replay scenario. -/
theorem clientSwap_no_consecutive_retrigger_witness :
    List.Chain' (fun a b => a ≠ b)
      (c3State.lastTriggeredBreakIndex ::
        List.map (fun n : ℕ => (n : ℤ)) (runSwapEvents c3State c3Events).2) :=
  clientSwap_no_consecutive_retrigger c3Events c3State (by decide)

end AdDemo
